import Mathlib

/-!
Verification of the Sparkling interpreter driver (`spn.c`) and the public
API header (`src/src/api.h`).

This file gives a shallow embedding of the parts of the Sparkling repository
relevant to the frozen claims:

* the command-line argument scanner `process_args` and the command dispatch of
  `main`;
* the shebang-stripping front end of `run_script_file`;
* the error-reporting logic of `enter_repl` and `print_stacktrace_if_needed`;
* the bytecode disassembler (`disasm_exec`, `disasm_symtab`, `disasm_bytecode`);
* the class-UID constants of `src/api.h`.

Bytecode images are modelled as lists of natural numbers, one entry per
`spn_uword`.  The model fixes the data layout of a little-endian host with
32-bit `spn_uword` (the minimum the code guarantees: `api.h` requires at least
32 bits and `SPN_WORD_OCTETS = 4`) and 8-byte `long`/`double`.  C strings that
the disassembler reads out of the word array are recovered through an explicit
byte view of the word list.

The repository ships only `spn.c` and `src/api.h`; the headers `vm.h`,
`ctx.h` and `private.h` (instruction/opcode enumerations, function-header
index macros, `OPCODE`/`OPA`/.../`OPLONG` decoders, `ROUNDUP`, `nth_arg_idx`,
and the `SpnContext` accessors) are declared but not present.  Definitions
that embed those missing pieces are modelled from the specification and carry
a doc comment starting with `Modelled from the spec:`.
-/

set_option maxHeartbeats 1000000

namespace Sparkling

/-! ## Word model and instruction decoding -/

/-- Modelled from the spec: a VM word is the smallest integer of at least 32
bits; the model fixes 32-bit words, hence 4 octets per word (`api.h`
guarantees `SPN_WORD_OCTETS = 4`). -/
def wordBytes : Nat := 4

/-- Constant `SPN_WORD_OCTETS` from `src/src/api.h` line 40. -/
def SPN_WORD_OCTETS : Nat := 4

/-- Modelled from the spec: `ROUNDUP` of `private.h` (not under `src/`),
rounding-up division used to count the words occupied by `x` bytes. -/
def ROUNDUP (x y : Nat) : Nat := (x + y - 1) / y

/-- Modelled from the spec: bits 0-7 of an instruction word are the opcode
(`OPCODE` macro of `vm.h`, not under `src/`). -/
def OPCODE (w : Nat) : Nat := w % 256

/-- Modelled from the spec: bits 8-15 are operand A. -/
def OPA (w : Nat) : Nat := w / 256 % 256

/-- Modelled from the spec: bits 16-23 are operand B. -/
def OPB (w : Nat) : Nat := w / 65536 % 256

/-- Modelled from the spec: bits 24-31 are operand C. -/
def OPC (w : Nat) : Nat := w / 16777216 % 256

/-- Modelled from the spec: bits 8-23, a 16-bit immediate. -/
def OPMID (w : Nat) : Nat := w / 256 % 65536

/-- Modelled from the spec: bits 8-31, a 24-bit immediate. -/
def OPLONG (w : Nat) : Nat := w / 256 % 16777216

/-- Little-endian byte view of one 32-bit word. -/
def wordToBytes (w : Nat) : List Nat :=
  [w % 256, w / 256 % 256, w / 65536 % 256, w / 16777216 % 256]

/-- Byte view of a whole word image, as the C code obtains by casting
`spn_uword *` to `const char *`. -/
def imageBytes (bc : List Nat) : List Nat :=
  (bc.map wordToBytes).flatten

/-- The value `strlen` computes for the C string starting at byte offset `p`
of the image: the number of bytes before the first NUL.  `none` when no NUL
byte exists in the image from `p` on (there `strlen` would read out of
bounds, which is undefined behaviour in the C code). -/
def strlenFrom (bytes : List Nat) (p : Nat) : Option Nat :=
  (bytes.drop p).findIdx? (· == 0)

/-- The characters of the C string of length `len` starting at byte offset
`p` (used only to reproduce `%s` output). -/
def cstrAt (bc : List Nat) (p len : Nat) : String :=
  String.mk ((((imageBytes bc).drop p).take len).map Char.ofNat)

/-- Reinterpret a 32-bit word as the signed `spn_sword` (two's complement),
as the `spn_sword offset = *ip++;` reads in `disasm_exec` do. -/
def toSword (w : Nat) : Int :=
  if w % 4294967296 < 2147483648 then (w % 4294967296 : Int)
  else (w % 4294967296 : Int) - 4294967296

/-- Reinterpret a 64-bit quantity as a signed `long` (the `memcpy(&inum, ip,
sizeof(inum))` of the `SPN_INS_LDCONST` case, on an 8-byte-`long` host). -/
def toSlong (w : Nat) : Int :=
  if w % 18446744073709551616 < 9223372036854775808 then (w % 18446744073709551616 : Int)
  else (w % 18446744073709551616 : Int) - 18446744073709551616

/-! ## Class UIDs (`src/api.h` lines 54-73) -/

/-- Constant `SPN_USER_CLASS_UID_BASE` from `src/src/api.h` line 59. -/
def SPN_USER_CLASS_UID_BASE : Nat := 0x10000

/-- Constant `SPN_CLASS_UID_STRING` from `src/src/api.h`. -/
def SPN_CLASS_UID_STRING : Nat := 1

/-- Constant `SPN_CLASS_UID_ARRAY` from `src/src/api.h`. -/
def SPN_CLASS_UID_ARRAY : Nat := 2

/-- Constant `SPN_CLASS_UID_HASHMAP` from `src/src/api.h`. -/
def SPN_CLASS_UID_HASHMAP : Nat := 3

/-- Constant `SPN_CLASS_UID_FUNCTION` from `src/src/api.h`. -/
def SPN_CLASS_UID_FUNCTION : Nat := 4

/-- Constant `SPN_CLASS_UID_FILEHANDLE` from `src/src/api.h`. -/
def SPN_CLASS_UID_FILEHANDLE : Nat := 5

/-- Constant `SPN_CLASS_UID_SYMTABENTRY` from `src/src/api.h`. -/
def SPN_CLASS_UID_SYMTABENTRY : Nat := 6

/-- Constant `SPN_CLASS_UID_SYMBOLSTUB` from `src/src/api.h`. -/
def SPN_CLASS_UID_SYMBOLSTUB : Nat := 7

/-- The UIDs of the seven built-in classes, in declaration order. -/
def builtinClassUIDs : List Nat :=
  [SPN_CLASS_UID_STRING, SPN_CLASS_UID_ARRAY, SPN_CLASS_UID_HASHMAP,
   SPN_CLASS_UID_FUNCTION, SPN_CLASS_UID_FILEHANDLE,
   SPN_CLASS_UID_SYMTABENTRY, SPN_CLASS_UID_SYMBOLSTUB]

/-! ## Command-line argument processing (`spn.c` lines 36-103, 1197-1248) -/

/-- The masks of `enum cmd_args` (`spn.c` lines 47-56). -/
def CMD_HELP : Nat := 1
def CMD_EXECUTE : Nat := 2
def CMD_COMPILE : Nat := 4
def CMD_DISASM : Nat := 8
def CMD_DUMPAST : Nat := 16
def FLAG_PRINTNIL : Nat := 256
def FLAG_PRINTRET : Nat := 512

/-- Constant `CMDS_MASK` (`spn.c` line 40). -/
def CMDS_MASK : Nat := 0x00ff

/-- The option table of `process_args` (`spn.c` lines 61-73): short option,
long option, mask. -/
def argTable : List (String × String × Nat) :=
  [("-h", "--help", CMD_HELP),
   ("-e", "--execute", CMD_EXECUTE),
   ("-c", "--compile", CMD_COMPILE),
   ("-d", "--disasm", CMD_DISASM),
   ("-a", "--dump-ast", CMD_DUMPAST),
   ("-n", "--print-nil", FLAG_PRINTNIL),
   ("-t", "--print-ret", FLAG_PRINTRET)]

/-- The inner loop of `process_args` (`spn.c` lines 84-91): the mask of the
first table row whose short or long option equals `s`, or `0` when none
matches (the C code leaves `arg == 0` in that case). -/
def matchOpt (s : String) : Nat :=
  match argTable.find? (fun r => r.1 == s || r.2.1 == s) with
  | some r => r.2.2
  | none => 0

/-- The loop of `process_args` (`spn.c` lines 77-99), walking `argv` from
index `i` (the list argument is the remaining suffix `argv[i:]`): stop at the
first argument matching no option, otherwise accumulate the mask. -/
def processArgsAux : List String → Nat → Nat → Nat × Nat
  | [], i, opts => (opts, i)
  | s :: rest, i, opts =>
    let arg := matchOpt s
    if arg = 0 then (opts, i) else processArgsAux rest (i + 1) (opts ||| arg)

/-- Function `process_args` (`spn.c` lines 59-103): returns `(opts, pos)` where `pos`
is the index of the first non-option argument (starting the scan at
`argv[1]`). -/
def processArgs (argv : List String) : Nat × Nat :=
  processArgsAux (argv.drop 1) 1 0

/-- The actions `main` (`spn.c` lines 1197-1248) can take after argument
processing.  `runFile` carries the file name `argv[pos]` and the argument
vector `&argv[pos]` (of length `argc - pos`) that `run_file` receives. -/
inductive DriverAction where
  | repl (flags : Nat)
  | runFile (fname : String) (scriptArgs : List String)
  | help
  | execute (args : List String) (flags : Nat)
  | compileFiles (files : List String)
  | disasmFiles (files : List String)
  | dumpAstFiles (files : List String)
  | internalError
deriving DecidableEq

/-- The `switch (args & CMDS_MASK)` dispatch of `main` (`spn.c` lines
1209-1245). -/
def mainDispatch (argv : List String) : DriverAction :=
  let r := processArgs argv
  let opts := r.1
  let pos := r.2
  let cmds := opts &&& CMDS_MASK
  if cmds = 0 then
    if pos = argv.length then .repl opts
    else .runFile (argv.getD pos "") (argv.drop pos)
  else if cmds = CMD_HELP then .help
  else if cmds = CMD_EXECUTE then .execute (argv.drop pos) opts
  else if cmds = CMD_COMPILE then .compileFiles (argv.drop pos)
  else if cmds = CMD_DISASM then .disasmFiles (argv.drop pos)
  else if cmds = CMD_DUMPAST then .dumpAstFiles (argv.drop pos)
  else .internalError

/-! ## Shebang handling in `run_script_file` (`spn.c` lines 160-224) -/

/-- What the front half of `run_script_file` does with a successfully read
source buffer (`spn.c` lines 173-196): either it returns `0` early without
ever invoking the compiler (`free(buf); return 0;`, lines 180-181), or it
hands the suffix `src` of the buffer to `spn_ctx_loadstring`. -/
inductive ScriptAction where
  | emptyScript
  | compileSrc (src : List Char)
deriving DecidableEq

/-- Lines 173-193 of `spn.c`: if the buffer starts with `#!`, find the first
`'\n'` (`pn = strchr(buf, '\n')`) and the first `'\r'` (`pr`) anywhere in the
buffer; with neither present the script is empty; otherwise skip past
whichever of the two comes later (`src = pn < pr ? pr + 1 : pn + 1`). -/
def runScriptFront (buf : List Char) : ScriptAction :=
  match buf with
  | '#' :: '!' :: _ =>
    match buf.findIdx? (· == '\n'), buf.findIdx? (· == '\r') with
    | none, none => .emptyScript
    | none, some r => .compileSrc (buf.drop (r + 1))
    | some n, none => .compileSrc (buf.drop (n + 1))
    | some n, some r =>
      if n < r then .compileSrc (buf.drop (r + 1)) else .compileSrc (buf.drop (n + 1))
  | _ => .compileSrc buf

/-- The early-exit code of `run_script_file`: `some 0` when the shebang path
returns before compiling (lines 180-181), `none` when execution proceeds to
the compiler and the exit status depends on compilation/execution. -/
def runScriptEarlyExit (buf : List Char) : Option Int :=
  match runScriptFront buf with
  | .emptyScript => some 0
  | .compileSrc _ => none

/-- The buffer's first two bytes are `#` and `!` (`buf[0] == '#' && buf[1] ==
'!'`, line 174). -/
def shebangPrefix (buf : List Char) : Prop :=
  buf.get? 0 = some '#' ∧ buf.get? 1 = some '!'

instance (buf : List Char) : Decidable (shebangPrefix buf) := by
  unfold shebangPrefix; infer_instance

/-- Index of the first line terminator (either `'\n'` or `'\r'`) in the
buffer.  When the character right after it is not the complementary
terminator, this position is unambiguously "the first line terminator of the
first line" in the words of the claim. -/
def firstLineTermIdx (buf : List Char) : Option Nat :=
  buf.findIdx? (fun c => c == '\n' || c == '\r')

/-! ## Error reporting (`spn.c` lines 136-154, 321-372) -/

/-- Modelled from the spec: the error kinds of `spn_ctx_geterrtype` (the
`SpnContext` implementation is not under `src/`): {none, syntax, semantic,
runtime, generic}. -/
inductive SpnErrorType where
  | noErr
  | syntaxErr
  | semanticErr
  | runtimeErr
  | genericErr
deriving DecidableEq

/-- An error as the driver observes it through the context: its type
(`spn_ctx_geterrtype`) and its message (`spn_ctx_geterrmsg`). -/
structure SpnError where
  etype : SpnErrorType
  msg : String
deriving DecidableEq

/-- Function `print_stacktrace_if_needed` (`spn.c` lines 136-154): the lines written
to `stderr`, given the context's error type and the stack trace
`spn_ctx_stacktrace` would return.  Modelled from the spec: the trace vector
holds the function name of each active frame from innermost (index 0)
outward.  The `%-4u` field width of the index is not reproduced. -/
def stacktraceLines (etype : SpnErrorType) (bt : List String) : List String :=
  if etype = .runtimeErr then
    "Call stack:\n\n" ::
      (bt.enum.map (fun p => "\t[" ++ toString p.1 ++ "]\tin " ++ p.2 ++ "\n")) ++ ["\n"]
  else []

/-- What one REPL iteration prints (`enter_repl`, `spn.c` lines 321-372):
the `%s` message written to `stderr` (if any) and the value printed to
`stdout` (if any).  A value is `Option String`: `none` stands for `nil`,
`some s` for a value whose `spn_repl_print` representation is `s`. -/
structure ReplOut where
  errPrinted : Option String
  valuePrinted : Option (Option String)
deriving DecidableEq

/-- The error-handling logic of one `enter_repl` iteration (`spn.c` lines
321-372), parameterised by the outcomes of the context calls it makes:
`stmtR` is the result of `spn_ctx_execstring` (statement attempt), and
`exprR` describes the second attempt — `.error e` when
`spn_ctx_compile_expr` fails with context error `e`, `.ok (.error e)` when it
compiles but `spn_ctx_callfunc` fails with `e`, and `.ok (.ok v)` when the
call succeeds with value `v`.  The saved copy of the original message
(`orig_errmsg`, lines 334-337) is what gets printed when the expression
compilation fails (line 349). -/
def replLine (flags : Nat) (stmtR : Except SpnError (Option String))
    (exprR : Except SpnError (Except SpnError (Option String))) : ReplOut :=
  match stmtR with
  | .ok v =>
    { errPrinted := none,
      valuePrinted := if v.isSome ∨ flags &&& FLAG_PRINTNIL ≠ 0 then some v else none }
  | .error e =>
    if e.etype = .runtimeErr then
      { errPrinted := some e.msg, valuePrinted := none }
    else
      match exprR with
      | .error _ => { errPrinted := some e.msg, valuePrinted := none }
      | .ok (.error e2) => { errPrinted := some e2.msg, valuePrinted := none }
      | .ok (.ok v) => { errPrinted := none, valuePrinted := some v }

/-! ## Instruction opcodes

Modelled from the spec: `enum spn_vm_ins` lives in `vm.h`, which is not under
`src/`.  The numbering follows the spec's instruction listing (§4.1) and the
order of the `case` labels in `disasm_exec` (`spn.c` lines 530-853), which
relies on the EQ..MOD, AND..SHR and BITNOT..TYPEOF ranges being contiguous. -/

def SPN_INS_CALL : Nat := 0
def SPN_INS_RET : Nat := 1
def SPN_INS_JMP : Nat := 2
def SPN_INS_JZE : Nat := 3
def SPN_INS_JNZ : Nat := 4
def SPN_INS_EQ : Nat := 5
def SPN_INS_NE : Nat := 6
def SPN_INS_LT : Nat := 7
def SPN_INS_LE : Nat := 8
def SPN_INS_GT : Nat := 9
def SPN_INS_GE : Nat := 10
def SPN_INS_ADD : Nat := 11
def SPN_INS_SUB : Nat := 12
def SPN_INS_MUL : Nat := 13
def SPN_INS_DIV : Nat := 14
def SPN_INS_MOD : Nat := 15
def SPN_INS_NEG : Nat := 16
def SPN_INS_INC : Nat := 17
def SPN_INS_DEC : Nat := 18
def SPN_INS_AND : Nat := 19
def SPN_INS_OR : Nat := 20
def SPN_INS_XOR : Nat := 21
def SPN_INS_SHL : Nat := 22
def SPN_INS_SHR : Nat := 23
def SPN_INS_BITNOT : Nat := 24
def SPN_INS_LOGNOT : Nat := 25
def SPN_INS_SIZEOF : Nat := 26
def SPN_INS_TYPEOF : Nat := 27
def SPN_INS_CONCAT : Nat := 28
def SPN_INS_LDCONST : Nat := 29
def SPN_INS_LDSYM : Nat := 30
def SPN_INS_MOV : Nat := 31
def SPN_INS_LDARGC : Nat := 32
def SPN_INS_NEWARR : Nat := 33
def SPN_INS_ARRGET : Nat := 34
def SPN_INS_ARRSET : Nat := 35
def SPN_INS_NTHARG : Nat := 36
def SPN_INS_FUNCTION : Nat := 37
def SPN_INS_GLBVAL : Nat := 38
def SPN_INS_CLOSURE : Nat := 39
def SPN_INS_LDUPVAL : Nat := 40

/-- Modelled from the spec: the constant kinds of `SPN_INS_LDCONST`
(`vm.h`), selecting nil/true/false/int/float in this order. -/
def SPN_CONST_NIL : Nat := 0
def SPN_CONST_TRUE : Nat := 1
def SPN_CONST_FALSE : Nat := 2
def SPN_CONST_INT : Nat := 3
def SPN_CONST_FLOAT : Nat := 4

/-- Modelled from the spec: `enum spn_upval_type` (`vm.h`), LOCAL then
OUTER. -/
def SPN_UPVAL_LOCAL : Nat := 0
def SPN_UPVAL_OUTER : Nat := 1

/-- Modelled from the spec: `enum` of local symbol kinds (`vm.h`), in the
spec's order STRCONST, SYMSTUB, FUNCDEF. -/
def SPN_LOCSYM_STRCONST : Nat := 0
def SPN_LOCSYM_SYMSTUB : Nat := 1
def SPN_LOCSYM_FUNCDEF : Nat := 2

/-- Modelled from the spec: the function header layout (`vm.h`): a
fixed-length header holding SYMCNT, BODYLEN, ARGC, NREGS (spec §4.1), indexed
by these constants. -/
def SPN_FUNCHDR_IDX_SYMCNT : Nat := 0
def SPN_FUNCHDR_IDX_BODYLEN : Nat := 1
def SPN_FUNCHDR_IDX_ARGC : Nat := 2
def SPN_FUNCHDR_IDX_NREGS : Nat := 3
def SPN_FUNCHDR_LEN : Nat := 4

/-- Constant `MAX_FUNC_NEST` (`spn.c` line 469). -/
def MAX_FUNC_NEST : Nat := 0x1000

/-! ## The disassembler (`spn.c` lines 448-1026)

The executable-section dumper is modelled instruction by instruction.  Word
indices play the role of the C pointers (`ip - bc` etc.).  The per-line
address prefix, indentation and inter-function blank lines (`spn.c` lines
500-528) are presentation only and are not reproduced; the body of each
`switch` case is.  Numeric operands are rendered in decimal (the `%#lx` hex
duplicates and `%#08lx` targets of a few cases are not reproduced), and
IEEE-754 `%.15f` formatting of float constants is outside the model. -/

/-- Rendering of a register operand, `r%d`. -/
def rStr (n : Nat) : String := "r" ++ toString n

/-- The name table of the EQ..MOD case (`spn.c` lines 598-610). -/
def arithOpnames : List String :=
  ["eq", "ne", "lt", "le", "gt", "ge", "add", "sub", "mul", "div", "mod"]

/-- The name table of the AND..SHR case (`spn.c` lines 635-641). -/
def bitwiseOpnames : List String :=
  ["and", "or", "xor", "shl", "shr"]

/-- The name table of the BITNOT..TYPEOF case (`spn.c` lines 655-660). -/
def unaryOpnames : List String :=
  ["bitnot", "lognot", "sizeof", "typeof"]

/-- Modelled from the spec: `nth_arg_idx` of `private.h` (not under `src/`)
extracts the `i`-th call-argument register index from the words following a
CALL instruction, four 8-bit indices per word. -/
def nthArgIdx (bc : List Nat) (ip i : Nat) : Option Nat :=
  (bc.get? (ip + i / SPN_WORD_OCTETS)).map
    (fun w => w / 256 ^ (i % SPN_WORD_OCTETS) % 256)

/-- All `argc` call-argument indices, `none` when a word is missing (the C
code would read out of bounds). -/
def callArgs (bc : List Nat) (ip argc : Nat) : Option (List Nat) :=
  (List.range argc).mapM (nthArgIdx bc ip)

/-- Result of scanning the upvalue descriptors of a CLOSURE instruction
(`spn.c` lines 814-838). -/
inductive UpvalScan where
  | uoob
  | ufail
  | uok (s : String)
deriving DecidableEq

/-- The upvalue loop of the CLOSURE case: reads `rem` more descriptor words
starting at `base + i`, appending one `%d: #%d [%c]` item per descriptor;
fails on an unknown upvalue type (`spn.c` line 833). -/
def closureUpvals (bc : List Nat) (base : Nat) : Nat → Nat → String → UpvalScan
  | 0, _, acc => .uok acc
  | rem + 1, i, acc =>
    match bc.get? (base + i) with
    | none => .uoob
    | some d =>
      let t := OPCODE d
      let item := (if i > 0 then ", " else "") ++
        toString i ++ ": #" ++ toString (OPA d) ++ " [" ++
        (if t = SPN_UPVAL_LOCAL then "L" else "O") ++ "]"
      if t = SPN_UPVAL_LOCAL ∨ t = SPN_UPVAL_OUTER then
        closureUpvals bc base rem (i + 1) (acc ++ item)
      else .ufail

/-- State of the `disasm_exec` loop: the instruction pointer (a word index
into `bc`) and the `fnend` stack of function end addresses; the stack's
length is the C code's `fnlevel`, its head is `fnend[fnlevel - 1]`. -/
structure ExecSt where
  ip : Nat
  fnend : List Nat
deriving DecidableEq

/-- Result of processing one instruction: `fail` models a `bail(...); return
-1;` path, `oob` a read past the end of the image (undefined behaviour in the
C code), and `next` carries the printed text and the successor state. -/
inductive StepRes where
  | fail
  | oob
  | next (out : String) (st : ExecSt)
deriving DecidableEq

/-- The `switch (opcode)` of `disasm_exec` (`spn.c` lines 530-853).  `ins` is
the instruction word already fetched, `ip` the word index just past it, and
`fnend` the current stack (after the pop of line 500).  Each branch mirrors
one `case`, printing the same text (up to the formatting simplifications
noted above) and advancing `ip` over the same inline words. -/
def disasmDispatch (bc : List Nat) (ins : Nat) (ip : Nat) (fnend : List Nat) : StepRes :=
  let op := OPCODE ins
  let a := OPA ins
  let b := OPB ins
  let c := OPC ins
  if op = SPN_INS_CALL then
    match callArgs bc ip c with
    | none => .oob
    | some l =>
      .next ("call\t" ++ rStr a ++ " = " ++ rStr b ++ "(" ++
          String.intercalate ", " (l.map rStr) ++ ")\n")
        ⟨ip + ROUNDUP c SPN_WORD_OCTETS, fnend⟩
  else if op = SPN_INS_RET then
    .next ("ret\t" ++ rStr a ++ "\n") ⟨ip, fnend⟩
  else if op = SPN_INS_JMP then
    match bc.get? ip with
    | none => .oob
    | some w =>
      .next ("jmp\t" ++ (if toSword w ≥ 0 then "+" else "") ++ toString (toSword w) ++
          "\t# target: " ++ toString ((ip : Int) + 1 + toSword w) ++ "\n")
        ⟨ip + 1, fnend⟩
  else if op = SPN_INS_JZE ∨ op = SPN_INS_JNZ then
    match bc.get? ip with
    | none => .oob
    | some w =>
      .next ((if op = SPN_INS_JZE then "jze" else "jnz") ++ "\t" ++ rStr a ++ ", " ++
          (if toSword w ≥ 0 then "+" else "") ++ toString (toSword w) ++
          "\t# target: " ++ toString ((ip : Int) + 1 + toSword w) ++ "\n")
        ⟨ip + 1, fnend⟩
  else if SPN_INS_EQ ≤ op ∧ op ≤ SPN_INS_MOD then
    .next (arithOpnames.getD (op - SPN_INS_EQ) "" ++ "\t" ++ rStr a ++ ", " ++
        rStr b ++ ", " ++ rStr c ++ "\n") ⟨ip, fnend⟩
  else if op = SPN_INS_NEG then
    .next ("neg\t" ++ rStr a ++ ", " ++ rStr b ++ "\n") ⟨ip, fnend⟩
  else if op = SPN_INS_INC ∨ op = SPN_INS_DEC then
    .next ((if op = SPN_INS_INC then "inc" else "dec") ++ "\t" ++ rStr a ++ "\n")
      ⟨ip, fnend⟩
  else if SPN_INS_AND ≤ op ∧ op ≤ SPN_INS_SHR then
    .next (bitwiseOpnames.getD (op - SPN_INS_AND) "" ++ "\t" ++ rStr a ++ ", " ++
        rStr b ++ ", " ++ rStr c ++ "\n") ⟨ip, fnend⟩
  else if SPN_INS_BITNOT ≤ op ∧ op ≤ SPN_INS_TYPEOF then
    .next (unaryOpnames.getD (op - SPN_INS_BITNOT) "" ++ "\t" ++ rStr a ++ ", " ++
        rStr b ++ "\n") ⟨ip, fnend⟩
  else if op = SPN_INS_CONCAT then
    .next ("concat\t" ++ rStr a ++ ", " ++ rStr b ++ ", " ++ rStr c ++ "\n") ⟨ip, fnend⟩
  else if op = SPN_INS_LDCONST then
    if b = SPN_CONST_NIL then .next ("ld\t" ++ rStr a ++ ", nil\n") ⟨ip, fnend⟩
    else if b = SPN_CONST_TRUE then .next ("ld\t" ++ rStr a ++ ", true\n") ⟨ip, fnend⟩
    else if b = SPN_CONST_FALSE then .next ("ld\t" ++ rStr a ++ ", false\n") ⟨ip, fnend⟩
    else if b = SPN_CONST_INT then
      match bc.get? ip, bc.get? (ip + 1) with
      | some w0, some w1 =>
        .next ("ld\t" ++ rStr a ++ ", " ++ toString (toSlong (w0 + 4294967296 * w1)) ++ "\n")
          ⟨ip + ROUNDUP 8 wordBytes, fnend⟩
      | _, _ => .oob
    else if b = SPN_CONST_FLOAT then
      match bc.get? ip, bc.get? (ip + 1) with
      | some _, some _ =>
        .next ("ld\t" ++ rStr a ++ ", <float>\n") ⟨ip + ROUNDUP 8 wordBytes, fnend⟩
      | _, _ => .oob
    else .fail
  else if op = SPN_INS_LDSYM then
    .next ("ld\t" ++ rStr a ++ ", symbol " ++ toString (OPMID ins) ++ "\n") ⟨ip, fnend⟩
  else if op = SPN_INS_MOV then
    .next ("mov\t" ++ rStr a ++ ", " ++ rStr b ++ "\n") ⟨ip, fnend⟩
  else if op = SPN_INS_LDARGC then
    .next ("ld\t" ++ rStr a ++ ", argc\n") ⟨ip, fnend⟩
  else if op = SPN_INS_NEWARR then
    .next ("ld\t" ++ rStr a ++ ", new array\n") ⟨ip, fnend⟩
  else if op = SPN_INS_ARRGET then
    .next ("arrget\t" ++ rStr a ++ ", " ++ rStr b ++ ", " ++ rStr c ++ "\t# " ++
        rStr a ++ " = " ++ rStr b ++ "[" ++ rStr c ++ "]\n") ⟨ip, fnend⟩
  else if op = SPN_INS_ARRSET then
    .next ("arrset\t" ++ rStr a ++ ", " ++ rStr b ++ ", " ++ rStr c ++ "\t# " ++
        rStr a ++ "[" ++ rStr b ++ "] = " ++ rStr c ++ "\n") ⟨ip, fnend⟩
  else if op = SPN_INS_NTHARG then
    .next ("getarg\t" ++ rStr a ++ ", " ++ rStr b ++ "\t# " ++ rStr a ++
        " = argv[" ++ rStr b ++ "]\n") ⟨ip, fnend⟩
  else if op = SPN_INS_FUNCTION then
    match bc.get? (ip + SPN_FUNCHDR_IDX_BODYLEN), bc.get? (ip + SPN_FUNCHDR_IDX_ARGC),
        bc.get? (ip + SPN_FUNCHDR_IDX_NREGS) with
    | some bodylen, some argc, some nregs =>
      if argc > nregs then .fail
      else
        .next ("function (" ++ toString argc ++ " args, " ++ toString nregs ++
            " registers, length: " ++ toString bodylen ++ ", start: " ++ toString ip ++ ")\n")
          ⟨ip + SPN_FUNCHDR_LEN, (ip + SPN_FUNCHDR_LEN + bodylen) :: fnend⟩
    | _, _, _ => .oob
  else if op = SPN_INS_GLBVAL then
    match strlenFrom (imageBytes bc) (wordBytes * ip) with
    | none => .oob
    | some reallen =>
      let namelen := OPMID ins
      if namelen ≠ reallen then .fail
      else
        .next ("st\t" ++ rStr a ++ ", global <" ++ cstrAt bc (wordBytes * ip) reallen ++ ">\n")
          ⟨ip + ROUNDUP (namelen + 1) wordBytes, fnend⟩
  else if op = SPN_INS_CLOSURE then
    match closureUpvals bc ip b 0 "" with
    | .uoob => .oob
    | .ufail => .fail
    | .uok s =>
      .next ("closure\t" ++ rStr a ++ "\t; upvalues: " ++ s ++ "\n") ⟨ip + b, fnend⟩
  else if op = SPN_INS_LDUPVAL then
    .next ("ldupval\t" ++ rStr a ++ ", upval[" ++ toString b ++ "]\n") ⟨ip, fnend⟩
  else .fail

/-- One iteration of the `while (ip < text + textlen)` loop (`spn.c` lines
482-853): fetch the instruction word, check the nesting limit (line 487),
pop the function-end stack when the instruction sits at the recorded end
address (line 500; the push for `SPN_INS_FUNCTION` happens inside the
dispatch), then dispatch. -/
def disasmIter (bc : List Nat) (st : ExecSt) : StepRes :=
  match bc.get? st.ip with
  | none => .oob
  | some ins =>
    if st.fnend.length ≥ MAX_FUNC_NEST then .fail
    else
      let fnend1 :=
        match st.fnend with
        | top :: rest => if st.ip = top then rest else st.fnend
        | [] => []
      disasmDispatch bc ins (st.ip + 1) fnend1

/-- The `disasm_exec` loop, fuelled (each iteration consumes at least one
word, so `textlen + 1` is always enough fuel; exhaustion yields `none`).
`some 0` is the successful fall-through return, `some (-1)` a `bail`. -/
def disasmLoop (bc : List Nat) (textEnd : Nat) : Nat → ExecSt → Option Int
  | 0, _ => none
  | fuel + 1, st =>
    if st.ip < textEnd then
      match disasmIter bc st with
      | .fail => some (-1)
      | .oob => none
      | .next _ st2 => disasmLoop bc textEnd fuel st2
    else some 0

/-- Function `disasm_exec` (`spn.c` lines 472-857): starts at `text = bc +
SPN_FUNCHDR_LEN` with `fnend[0] = text + textlen`. -/
def disasmExec (bc : List Nat) (textlen : Nat) : Option Int :=
  disasmLoop bc (SPN_FUNCHDR_LEN + textlen) (textlen + 1)
    ⟨SPN_FUNCHDR_LEN, [SPN_FUNCHDR_LEN + textlen]⟩

/-- Result of processing one local-symbol-table entry in `disasm_symtab`
(`spn.c` lines 865-950): `serr` is a `bail(...); return -1;`, `soob` a read
past the end of the image (C undefined behaviour), `scont p` continues at
word index `p`. -/
inductive SymtabStep where
  | serr
  | soob
  | scont (nextPos : Nat)
deriving DecidableEq

/-- One entry of the symbol-table walk (`spn.c` lines 866-949): read the tag
word, dispatch on its kind.  STRCONST and SYMSTUB (lines 874-918) compare
the `strlen` of the inline string against `OPLONG` of the tag and advance by
`ROUNDUP(len + 1, sizeof(spn_uword))` words computed from the actual length;
FUNCDEF (lines 920-944) reads an offset word and a length word, compares the
length word against the `strlen` of the name, and advances by
`ROUNDUP(namelen + 1, ...)` computed from the expected length. -/
def symtabEntryStep (bc : List Nat) (pos : Nat) : SymtabStep :=
  match bc.get? pos with
  | none => .soob
  | some tag =>
    let kind := OPCODE tag
    if kind = SPN_LOCSYM_STRCONST then
      match strlenFrom (imageBytes bc) (wordBytes * (pos + 1)) with
      | none => .soob
      | some len =>
        if len ≠ OPLONG tag then .serr
        else .scont (pos + 1 + ROUNDUP (len + 1) wordBytes)
    else if kind = SPN_LOCSYM_SYMSTUB then
      match strlenFrom (imageBytes bc) (wordBytes * (pos + 1)) with
      | none => .soob
      | some len =>
        if len ≠ OPLONG tag then .serr
        else .scont (pos + 1 + ROUNDUP (len + 1) wordBytes)
    else if kind = SPN_LOCSYM_FUNCDEF then
      match bc.get? (pos + 1), bc.get? (pos + 2) with
      | some _, some namelen =>
        match strlenFrom (imageBytes bc) (wordBytes * (pos + 3)) with
        | none => .soob
        | some reallen =>
          if namelen ≠ reallen then .serr
          else .scont (pos + 3 + ROUNDUP (namelen + 1) wordBytes)
      | _, _ => .soob
    else .serr

/-- Result of walking `nsyms` symbol-table entries. -/
inductive WalkRes where
  | err
  | oob
  | done (pos : Nat)
deriving DecidableEq

/-- The `for (i = 0; i < nsyms; i++)` loop of `disasm_symtab` (`spn.c` lines
865-950). -/
def symtabWalk (bc : List Nat) : Nat → Nat → WalkRes
  | pos, 0 => .done pos
  | pos, n + 1 =>
    match symtabEntryStep bc pos with
    | .serr => .err
    | .soob => .oob
    | .scont p => symtabWalk bc p n

/-- Function `disasm_symtab` (`spn.c` lines 860-962): walk the entries, then fail if
the cursor went past `bc + offset + datalen` ("bytecode is longer than length
in header", line 953) or stopped short of it (line 956); succeed exactly at
it. -/
def disasmSymtab (bc : List Nat) (offset datalen nsyms : Nat) : Option Int :=
  match symtabWalk bc offset nsyms with
  | .err => some (-1)
  | .oob => none
  | .done p =>
    if p > offset + datalen then some (-1)
    else if p < offset + datalen then some (-1)
    else some 0

/-- Function `disasm_bytecode` (`spn.c` lines 964-992): read `SYMTAB_OFF = BODYLEN +
SPN_FUNCHDR_LEN`, `SYMCNT` and `NREGS` from the top-level header, run
`disasm_exec` on the executable section, then `disasm_symtab` on the rest,
whose length is the image length minus the symtab offset. -/
def disasmBytecode (bc : List Nat) (len : Nat) : Option Int :=
  match bc.get? SPN_FUNCHDR_IDX_BODYLEN, bc.get? SPN_FUNCHDR_IDX_SYMCNT,
      bc.get? SPN_FUNCHDR_IDX_NREGS with
  | some bodylen, some symtablen, some _ =>
    let symtaboff := bodylen + SPN_FUNCHDR_LEN
    match disasmExec bc (symtaboff - SPN_FUNCHDR_LEN) with
    | some x =>
      if x = 0 then disasmSymtab bc symtaboff (len - symtaboff) symtablen
      else some (-1)
    | none => none
  | _, _, _ => none

/-! ## Theorems -/

/-- C8: the class UIDs of all built-in classes lie in 1..7 (string, array,
hashmap, function, filehandle, symtab entry, symbol stub), the lowest UID
available to user classes is 0x10000, no built-in UID reaches 0x10000, and
the two ranges are disjoint. -/
theorem class_uid_ranges :
    SPN_CLASS_UID_STRING = 1 ∧ SPN_CLASS_UID_ARRAY = 2 ∧
    SPN_CLASS_UID_HASHMAP = 3 ∧ SPN_CLASS_UID_FUNCTION = 4 ∧
    SPN_CLASS_UID_FILEHANDLE = 5 ∧ SPN_CLASS_UID_SYMTABENTRY = 6 ∧
    SPN_CLASS_UID_SYMBOLSTUB = 7 ∧
    SPN_USER_CLASS_UID_BASE = 0x10000 ∧
    (builtinClassUIDs.all fun u =>
      decide (1 ≤ u) && decide (u ≤ 7) && decide (u < SPN_USER_CLASS_UID_BASE)) = true := by
  decide

/-- C10: a source buffer that starts with `#!` but contains neither `'\n'`
nor `'\r'` is treated as an empty script: `run_script_file` returns 0
without ever reaching `spn_ctx_loadstring` (the compiler) or
`spn_ctx_callfunc` (`spn.c` lines 178-181). -/
theorem shebang_no_terminator_empty_script (buf : List Char)
    (hpre : shebangPrefix buf) (hn : '\n' ∉ buf) (hr : '\r' ∉ buf) :
    runScriptFront buf = .emptyScript ∧ runScriptEarlyExit buf = some 0 := by
  obtain ⟨h0, h1⟩ := hpre
  match buf, h0, h1 with
  | c0 :: c1 :: rest, h0, h1 =>
    simp only [List.get?] at h0 h1
    obtain rfl : c0 = '#' := by injection h0
    obtain rfl : c1 = '!' := by injection h1
    have hfn : ('#' :: '!' :: rest).findIdx? (· == '\n') = none := by
      rw [List.findIdx?_eq_none_iff]
      intro x hx
      simp only [beq_eq_false_iff_ne, ne_eq]
      exact fun h => hn (h ▸ hx)
    have hfr : ('#' :: '!' :: rest).findIdx? (· == '\r') = none := by
      rw [List.findIdx?_eq_none_iff]
      intro x hx
      simp only [beq_eq_false_iff_ne, ne_eq]
      exact fun h => hr (h ▸ hx)
    refine ⟨?_, ?_⟩
    · simp only [runScriptFront, hfn, hfr]
    · simp only [runScriptEarlyExit, runScriptFront, hfn, hfr]

/-- C10 witness: the concrete buffer `"#!ab"`. -/
theorem shebang_no_terminator_witness :
    runScriptFront ['#', '!', 'a', 'b'] = .emptyScript ∧
    runScriptEarlyExit ['#', '!', 'a', 'b'] = some 0 :=
  shebang_no_terminator_empty_script ['#', '!', 'a', 'b']
    (by decide) (by decide) (by decide)

/-- C1 counterexample: for the file `"#!\nX\rY"` the first line is `"#!"`
and its terminator is the `'\n'` at index 2 (the only `'\r'` lies on the
second line, after the `'X'`), so the claim says the text `"X\rY"` after
that `'\n'` is presented to the compiler; the code instead skips to the
first `'\r'` of the whole buffer, which comes later, and compiles `"Y"`. -/
theorem shebang_first_line_counterexample :
    firstLineTermIdx ['#', '!', '\n', 'X', '\r', 'Y'] = some 2 ∧
    (['#', '!', '\n', 'X', '\r', 'Y'] : List Char).drop (2 + 1) = ['X', '\r', 'Y'] ∧
    runScriptFront ['#', '!', '\n', 'X', '\r', 'Y'] = .compileSrc ['Y'] ∧
    (['Y'] : List Char) ≠ ['X', '\r', 'Y'] := by
  decide

/-- C1 (amended): for every source buffer whose first two bytes are `#!`,
the driver skips past whichever of the first `'\n'` and the first `'\r'` of
the entire buffer comes later when both are present (regardless of whether
both lie in the first line), or past the sole one present otherwise, and
presents exactly the remaining text to the compiler; in particular for
`"#!/usr/bin/env spn\nprint(1);"` exactly `"print(1);"` is compiled. -/
theorem shebang_skips_later_of_first_terminators :
    (∀ buf n r, shebangPrefix buf →
       buf.findIdx? (· == '\n') = some n → buf.findIdx? (· == '\r') = some r →
       runScriptFront buf = .compileSrc (buf.drop (max n r + 1))) ∧
    (∀ buf n, shebangPrefix buf →
       buf.findIdx? (· == '\n') = some n → buf.findIdx? (· == '\r') = none →
       runScriptFront buf = .compileSrc (buf.drop (n + 1))) ∧
    (∀ buf r, shebangPrefix buf →
       buf.findIdx? (· == '\n') = none → buf.findIdx? (· == '\r') = some r →
       runScriptFront buf = .compileSrc (buf.drop (r + 1))) ∧
    runScriptFront "#!/usr/bin/env spn\nprint(1);".toList =
      .compileSrc "print(1);".toList := by
  refine ⟨?_, ?_, ?_, by decide⟩
  · intro buf n r hpre hn hr
    obtain ⟨h0, h1⟩ := hpre
    match buf, h0, h1 with
    | c0 :: c1 :: rest, h0, h1 =>
      simp only [List.get?] at h0 h1
      obtain rfl : c0 = '#' := by injection h0
      obtain rfl : c1 = '!' := by injection h1
      simp only [runScriptFront, hn, hr]
      rcases Nat.lt_or_ge n r with hlt | hge
      · rw [if_pos hlt, Nat.max_eq_right (Nat.le_of_lt hlt)]
      · rw [if_neg (Nat.not_lt.mpr hge), Nat.max_eq_left hge]
  · intro buf n hpre hn hr
    obtain ⟨h0, h1⟩ := hpre
    match buf, h0, h1 with
    | c0 :: c1 :: rest, h0, h1 =>
      simp only [List.get?] at h0 h1
      obtain rfl : c0 = '#' := by injection h0
      obtain rfl : c1 = '!' := by injection h1
      simp only [runScriptFront, hn, hr]
  · intro buf r hpre hn hr
    obtain ⟨h0, h1⟩ := hpre
    match buf, h0, h1 with
    | c0 :: c1 :: rest, h0, h1 =>
      simp only [List.get?] at h0 h1
      obtain rfl : c0 = '#' := by injection h0
      obtain rfl : c1 = '!' := by injection h1
      simp only [runScriptFront, hn, hr]

/-- C1 witness: the CRLF-terminated shebang line `"#!\r\nX"`, whose first
`'\n'` (index 3) comes after its first `'\r'` (index 2). -/
theorem shebang_skips_witness :
    runScriptFront ['#', '!', '\r', '\n', 'X'] =
      .compileSrc ((['#', '!', '\r', '\n', 'X'] : List Char).drop (max 3 2 + 1)) ∧
    (['#', '!', '\r', '\n', 'X'] : List Char).drop (max 3 2 + 1) = ['X'] :=
  ⟨shebang_skips_later_of_first_terminators.1 ['#', '!', '\r', '\n', 'X'] 3 2
      (by decide) (by decide) (by decide),
   by decide⟩

/-- C5: in the REPL, when the statement attempt fails with a non-runtime
(syntax or semantic) error, the original message is saved; if the
expression-compilation attempt also fails, the saved original message is the
one printed (not the second error's), while if compilation succeeds but the
call raises a runtime error, the new error message is printed instead
(`spn.c` lines 321-363). -/
theorem repl_error_message_precedence (flags : Nat) (e : SpnError)
    (exprR : Except SpnError (Except SpnError (Option String)))
    (h : e.etype ≠ SpnErrorType.runtimeErr) :
    (∀ e2, exprR = .error e2 →
       replLine flags (.error e) exprR = ⟨some e.msg, none⟩) ∧
    (∀ e3, exprR = .ok (.error e3) →
       replLine flags (.error e) exprR = ⟨some e3.msg, none⟩) := by
  constructor
  · rintro e2 rfl
    simp [replLine, h]
  · rintro e3 rfl
    simp [replLine, h]

/-- C5 witness: a concrete syntax error `"orig"`, with a failing second
compilation in the first conjunct and a runtime failure `"rt"` of the
compiled expression in the second. -/
theorem repl_error_message_precedence_witness :
    replLine 0 (.error ⟨.syntaxErr, "orig"⟩) (.error ⟨.semanticErr, "second"⟩) =
      ⟨some "orig", none⟩ ∧
    replLine 0 (.error ⟨.syntaxErr, "orig"⟩) (.ok (.error ⟨.runtimeErr, "rt"⟩)) =
      ⟨some "rt", none⟩ :=
  ⟨(repl_error_message_precedence 0 ⟨.syntaxErr, "orig"⟩
      (.error ⟨.semanticErr, "second"⟩) (by decide)).1 ⟨.semanticErr, "second"⟩ rfl,
   (repl_error_message_precedence 0 ⟨.syntaxErr, "orig"⟩
      (.ok (.error ⟨.runtimeErr, "rt"⟩)) (by decide)).2 ⟨.runtimeErr, "rt"⟩ rfl⟩

/-- C6: `print_stacktrace_if_needed` writes the captured stack trace if and
only if the context's error type is runtime; for syntax, semantic and
generic errors nothing is printed, and for runtime errors line `i + 1` of
the output names the frame at index `i` of the trace, which runs from the
innermost frame (index 0) outward. -/
theorem stacktrace_iff_runtime (etype : SpnErrorType) (bt : List String) :
    (stacktraceLines etype bt ≠ [] ↔ etype = .runtimeErr) ∧
    (etype ≠ .runtimeErr → stacktraceLines etype bt = []) ∧
    (∀ i name, bt.get? i = some name →
       (stacktraceLines .runtimeErr bt).get? (i + 1) =
         some ("\t[" ++ toString i ++ "]\tin " ++ name ++ "\n")) := by
  refine ⟨?_, ?_, ?_⟩
  · by_cases h : etype = SpnErrorType.runtimeErr
    · subst h
      simp [stacktraceLines]
    · simp [stacktraceLines, h]
  · intro h
    simp [stacktraceLines, h]
  · intro i name hget
    have hi : i < bt.length := by
      by_contra hcon
      rw [List.get?_eq_none.mpr (Nat.le_of_not_lt hcon)] at hget
      exact Option.noConfusion hget
    rw [List.get?_eq_getElem?] at hget
    have hbt : bt[i] = name := by
      rw [List.getElem?_eq_getElem hi] at hget
      exact Option.some.inj hget
    simp [stacktraceLines, List.enum_eq_enumFrom, List.getElem?_append, hget, hi, hbt]

/-- C6 witness: a runtime error with a two-frame trace prints the frames in
order, and a syntax error prints nothing. -/
theorem stacktrace_iff_runtime_witness :
    (stacktraceLines .runtimeErr ["inner", "outer"]).get? (1 + 1) =
      some ("\t[" ++ toString 1 ++ "]\tin " ++ "outer" ++ "\n") ∧
    stacktraceLines .syntaxErr ["inner", "outer"] = [] :=
  ⟨(stacktrace_iff_runtime .runtimeErr ["inner", "outer"]).2.2 1 "outer" rfl,
   (stacktrace_iff_runtime .syntaxErr ["inner", "outer"]).2.1 (by decide)⟩

/-- Helper: full characterisation of the `process_args` scanning loop over
the remaining argument list `l` (which stands for `argv[i:]`): the loop
stops after some `k ≤ l.length` option arguments, every argument before the
stop matches an option, the argument at the stop (if any) matches none, and
the accumulated mask is the fold of the matched masks. -/
theorem processArgsAux_spec (l : List String) :
    ∀ i opts, ∃ k, k ≤ l.length ∧
      (processArgsAux l i opts).2 = i + k ∧
      (∀ j s, j < k → l.get? j = some s → matchOpt s ≠ 0) ∧
      (∀ s, l.get? k = some s → matchOpt s = 0) ∧
      (processArgsAux l i opts).1 =
        (l.take k).foldl (fun o s => o ||| matchOpt s) opts := by
  induction l with
  | nil =>
    intro i opts
    exact ⟨0, by simp [processArgsAux]⟩
  | cons s rest ih =>
    intro i opts
    by_cases hs : matchOpt s = 0
    · refine ⟨0, by simp, ?_, ?_, ?_, ?_⟩
      · simp [processArgsAux, hs]
      · intro j t hj ht
        omega
      · intro t ht
        simp only [List.get?] at ht
        obtain rfl : s = t := by injection ht
        exact hs
      · simp [processArgsAux, hs]
    · obtain ⟨k, hk, h2, h3, h4, h5⟩ := ih (i + 1) (opts ||| matchOpt s)
      refine ⟨k + 1, by simpa using hk, ?_, ?_, ?_, ?_⟩
      · simp only [processArgsAux, if_neg hs]
        omega
      · intro j t hj ht
        match j, ht with
        | 0, ht =>
          simp only [List.get?] at ht
          obtain rfl : s = t := by injection ht
          exact hs
        | j' + 1, ht =>
          exact h3 j' t (by omega) ht
      · intro t ht
        exact h4 t ht
      · simp only [processArgsAux, if_neg hs, List.take_succ_cons, List.foldl_cons]
        exact h5

/-- C9: `process_args` stops at the first argument (scanning from index 1)
that matches no known command or flag; every earlier argument matches one,
the accumulated option mask comes only from those earlier arguments, and
when no command was selected `main` runs that first non-option argument as
the file, passing it and every later argument — whatever they look like —
to the script as `argv` (`spn.c` lines 59-103 and 1214-1219). -/
theorem arg_parsing_stops_at_first_nonoption (argv : List String) :
    1 ≤ (processArgs argv).2 ∧
    (∀ j s, 1 ≤ j → j < (processArgs argv).2 → argv.get? j = some s → matchOpt s ≠ 0) ∧
    (∀ s, argv.get? (processArgs argv).2 = some s → matchOpt s = 0) ∧
    (processArgs argv).1 =
      ((argv.drop 1).take ((processArgs argv).2 - 1)).foldl
        (fun o s => o ||| matchOpt s) 0 ∧
    ((processArgs argv).1 &&& CMDS_MASK = 0 → (processArgs argv).2 < argv.length →
       mainDispatch argv =
         .runFile (argv.getD (processArgs argv).2 "") (argv.drop (processArgs argv).2)) := by
  obtain ⟨k, hk, h2, h3, h4, h5⟩ := processArgsAux_spec (argv.drop 1) 1 0
  have hpos : (processArgs argv).2 = 1 + k := h2
  have hdropget : ∀ j, (argv.drop 1).get? j = argv.get? (1 + j) := by
    intro j
    simp [List.getElem?_drop, Nat.add_comm]
  refine ⟨by omega, ?_, ?_, ?_, ?_⟩
  · intro j s hj1 hjlt hget
    have hj : j - 1 < k := by omega
    refine h3 (j - 1) s hj ?_
    rw [hdropget]
    have : 1 + (j - 1) = j := by omega
    rw [this]
    exact hget
  · intro s hget
    refine h4 s ?_
    rw [hdropget]
    rw [hpos] at hget
    exact hget
  · rw [hpos]
    have : 1 + k - 1 = k := by omega
    rw [this]
    exact h5
  · intro hm hlt
    simp only [mainDispatch]
    rw [if_pos hm, if_neg (by omega)]

/-- C9 witness: `spn foo.spn -n` — parsing stops at `foo.spn` (index 1), the
mask stays 0, and `-n` reaches the script as an argument instead of turning
on the print-nil flag. -/
theorem arg_parsing_witness :
    mainDispatch ["spn", "foo.spn", "-n"] = .runFile "foo.spn" ["foo.spn", "-n"] ∧
    (processArgs ["spn", "foo.spn", "-n"]).1 = 0 :=
  ⟨((arg_parsing_stops_at_first_nonoption ["spn", "foo.spn", "-n"]).2.2.2.2
      (by decide) (by decide)).trans (by decide),
   by decide⟩

/-- Helper: dispatching any opcode in the arithmetic/comparison range
EQ..MOD prints the mnemonic selected by `opcode - SPN_INS_EQ` (`spn.c` lines
582-617). -/
theorem dispatch_arith (bc : List Nat) (ins ip : Nat) (fnend : List Nat) (k : Nat)
    (hk : k ≤ 10) (hop : OPCODE ins = SPN_INS_EQ + k) :
    disasmDispatch bc ins ip fnend =
      .next (arithOpnames.getD k "" ++ "\t" ++ rStr (OPA ins) ++ ", " ++
          rStr (OPB ins) ++ ", " ++ rStr (OPC ins) ++ "\n") ⟨ip, fnend⟩ := by
  interval_cases k <;>
    simp_all [disasmDispatch, SPN_INS_CALL, SPN_INS_RET, SPN_INS_JMP, SPN_INS_JZE,
      SPN_INS_JNZ, SPN_INS_EQ, SPN_INS_MOD, arithOpnames]

/-- Helper: dispatching any opcode in the bitwise range AND..SHR prints the
mnemonic selected by `opcode - SPN_INS_AND` (`spn.c` lines 629-648). -/
theorem dispatch_bitwise (bc : List Nat) (ins ip : Nat) (fnend : List Nat) (k : Nat)
    (hk : k ≤ 4) (hop : OPCODE ins = SPN_INS_AND + k) :
    disasmDispatch bc ins ip fnend =
      .next (bitwiseOpnames.getD k "" ++ "\t" ++ rStr (OPA ins) ++ ", " ++
          rStr (OPB ins) ++ ", " ++ rStr (OPC ins) ++ "\n") ⟨ip, fnend⟩ := by
  interval_cases k <;>
    simp_all [disasmDispatch, SPN_INS_CALL, SPN_INS_RET, SPN_INS_JMP, SPN_INS_JZE,
      SPN_INS_JNZ, SPN_INS_EQ, SPN_INS_MOD, SPN_INS_NEG, SPN_INS_INC, SPN_INS_DEC,
      SPN_INS_AND, SPN_INS_SHR, bitwiseOpnames]

/-- Helper: dispatching any opcode in the unary range BITNOT..TYPEOF prints
the mnemonic selected by `opcode - SPN_INS_BITNOT` (`spn.c` lines 650-666). -/
theorem dispatch_unary (bc : List Nat) (ins ip : Nat) (fnend : List Nat) (k : Nat)
    (hk : k ≤ 3) (hop : OPCODE ins = SPN_INS_BITNOT + k) :
    disasmDispatch bc ins ip fnend =
      .next (unaryOpnames.getD k "" ++ "\t" ++ rStr (OPA ins) ++ ", " ++
          rStr (OPB ins) ++ "\n") ⟨ip, fnend⟩ := by
  interval_cases k <;>
    simp_all [disasmDispatch, SPN_INS_CALL, SPN_INS_RET, SPN_INS_JMP, SPN_INS_JZE,
      SPN_INS_JNZ, SPN_INS_EQ, SPN_INS_MOD, SPN_INS_NEG, SPN_INS_INC, SPN_INS_DEC,
      SPN_INS_AND, SPN_INS_SHR, SPN_INS_BITNOT, SPN_INS_TYPEOF, unaryOpnames]

/-- C2: for every instruction word whose opcode lies in EQ..MOD, AND..SHR or
BITNOT..TYPEOF, the disassembler prints the mnemonic obtained by indexing
the corresponding name table with the opcode's offset from the range's first
opcode, and the three ranges are dense and contiguous (each member sits at
its offset from the base). -/
theorem opcode_ranges_dense_mnemonics :
    (∀ bc ins ip fnend k, k ≤ 10 → OPCODE ins = SPN_INS_EQ + k →
       disasmDispatch bc ins ip fnend =
         .next (arithOpnames.getD k "" ++ "\t" ++ rStr (OPA ins) ++ ", " ++
             rStr (OPB ins) ++ ", " ++ rStr (OPC ins) ++ "\n") ⟨ip, fnend⟩) ∧
    (∀ bc ins ip fnend k, k ≤ 4 → OPCODE ins = SPN_INS_AND + k →
       disasmDispatch bc ins ip fnend =
         .next (bitwiseOpnames.getD k "" ++ "\t" ++ rStr (OPA ins) ++ ", " ++
             rStr (OPB ins) ++ ", " ++ rStr (OPC ins) ++ "\n") ⟨ip, fnend⟩) ∧
    (∀ bc ins ip fnend k, k ≤ 3 → OPCODE ins = SPN_INS_BITNOT + k →
       disasmDispatch bc ins ip fnend =
         .next (unaryOpnames.getD k "" ++ "\t" ++ rStr (OPA ins) ++ ", " ++
             rStr (OPB ins) ++ "\n") ⟨ip, fnend⟩) ∧
    (SPN_INS_NE = SPN_INS_EQ + 1 ∧ SPN_INS_LT = SPN_INS_EQ + 2 ∧
     SPN_INS_LE = SPN_INS_EQ + 3 ∧ SPN_INS_GT = SPN_INS_EQ + 4 ∧
     SPN_INS_GE = SPN_INS_EQ + 5 ∧ SPN_INS_ADD = SPN_INS_EQ + 6 ∧
     SPN_INS_SUB = SPN_INS_EQ + 7 ∧ SPN_INS_MUL = SPN_INS_EQ + 8 ∧
     SPN_INS_DIV = SPN_INS_EQ + 9 ∧ SPN_INS_MOD = SPN_INS_EQ + 10 ∧
     SPN_INS_OR = SPN_INS_AND + 1 ∧ SPN_INS_XOR = SPN_INS_AND + 2 ∧
     SPN_INS_SHL = SPN_INS_AND + 3 ∧ SPN_INS_SHR = SPN_INS_AND + 4 ∧
     SPN_INS_LOGNOT = SPN_INS_BITNOT + 1 ∧ SPN_INS_SIZEOF = SPN_INS_BITNOT + 2 ∧
     SPN_INS_TYPEOF = SPN_INS_BITNOT + 3 ∧
     arithOpnames.length = 11 ∧ bitwiseOpnames.length = 5 ∧ unaryOpnames.length = 4) := by
  refine ⟨?_, ?_, ?_, by decide⟩
  · intro bc ins ip fnend k hk hop
    exact dispatch_arith bc ins ip fnend k hk hop
  · intro bc ins ip fnend k hk hop
    exact dispatch_bitwise bc ins ip fnend k hk hop
  · intro bc ins ip fnend k hk hop
    exact dispatch_unary bc ins ip fnend k hk hop

/-- C2 witness: hand-crafted words for GE (= EQ + 5, operand registers 1, 2,
3) and SHR (= AND + 4) and TYPEOF (= BITNOT + 3) disassemble to their
mnemonics. -/
theorem opcode_ranges_witness :
    disasmDispatch [] (10 + 256 * 1 + 65536 * 2 + 16777216 * 3) 7 [9] =
      .next ("ge\tr1, r2, r3\n") ⟨7, [9]⟩ ∧
    disasmDispatch [] (23 + 256 * 1) 7 [] = .next ("shr\tr1, r0, r0\n") ⟨7, []⟩ ∧
    disasmDispatch [] (27 + 256 * 1 + 65536 * 2) 7 [] =
      .next ("typeof\tr1, r2\n") ⟨7, []⟩ :=
  ⟨(opcode_ranges_dense_mnemonics.1 [] (10 + 256 * 1 + 65536 * 2 + 16777216 * 3) 7 [9] 5
      (by decide) (by decide)).trans (by decide),
   (opcode_ranges_dense_mnemonics.2.1 [] (23 + 256 * 1) 7 [] 4
      (by decide) (by decide)).trans (by decide),
   (opcode_ranges_dense_mnemonics.2.2.1 [] (27 + 256 * 1 + 65536 * 2) 7 [] 3
      (by decide) (by decide)).trans (by decide)⟩

/-- Helper: the FUNCTION case of the dispatch (`spn.c` lines 746-783) reads
the header, prints it, pushes the body's end address, and bails exactly when
`argc > nregs`. -/
theorem dispatch_function (bc : List Nat) (ins ip : Nat) (fnend : List Nat)
    (bodylen argc nregs : Nat) (hop : OPCODE ins = SPN_INS_FUNCTION)
    (hb : bc.get? (ip + SPN_FUNCHDR_IDX_BODYLEN) = some bodylen)
    (ha : bc.get? (ip + SPN_FUNCHDR_IDX_ARGC) = some argc)
    (hn : bc.get? (ip + SPN_FUNCHDR_IDX_NREGS) = some nregs) :
    disasmDispatch bc ins ip fnend =
      if argc > nregs then .fail
      else
        .next ("function (" ++ toString argc ++ " args, " ++ toString nregs ++
            " registers, length: " ++ toString bodylen ++ ", start: " ++ toString ip ++ ")\n")
          ⟨ip + SPN_FUNCHDR_LEN, (ip + SPN_FUNCHDR_LEN + bodylen) :: fnend⟩ := by
  simp_all [disasmDispatch, SPN_INS_CALL, SPN_INS_RET, SPN_INS_JMP, SPN_INS_JZE,
    SPN_INS_JNZ, SPN_INS_EQ, SPN_INS_MOD, SPN_INS_NEG, SPN_INS_INC, SPN_INS_DEC,
    SPN_INS_AND, SPN_INS_SHR, SPN_INS_BITNOT, SPN_INS_TYPEOF, SPN_INS_CONCAT,
    SPN_INS_LDCONST, SPN_INS_LDSYM, SPN_INS_MOV, SPN_INS_LDARGC, SPN_INS_NEWARR,
    SPN_INS_ARRGET, SPN_INS_ARRSET, SPN_INS_NTHARG, SPN_INS_FUNCTION,
    SPN_FUNCHDR_IDX_BODYLEN, SPN_FUNCHDR_IDX_ARGC, SPN_FUNCHDR_IDX_NREGS]

/-- C7: `ARGC ≤ NREGS` is enforced for every FUNCTION header: the dispatch
bails on `argc > nregs` and only continues (past the header) otherwise, and
`disasm_exec` returns the failure result -1 for an image whose first
instruction is a FUNCTION with `argc > nregs` (`spn.c` lines 746-782). -/
theorem funchdr_argc_le_nregs_checked :
    (∀ bc ins ip fnend bodylen argc nregs,
       OPCODE ins = SPN_INS_FUNCTION →
       bc.get? (ip + SPN_FUNCHDR_IDX_BODYLEN) = some bodylen →
       bc.get? (ip + SPN_FUNCHDR_IDX_ARGC) = some argc →
       bc.get? (ip + SPN_FUNCHDR_IDX_NREGS) = some nregs →
       (argc > nregs → disasmDispatch bc ins ip fnend = .fail) ∧
       (argc ≤ nregs → disasmDispatch bc ins ip fnend =
          .next ("function (" ++ toString argc ++ " args, " ++ toString nregs ++
              " registers, length: " ++ toString bodylen ++ ", start: " ++ toString ip ++ ")\n")
            ⟨ip + SPN_FUNCHDR_LEN, (ip + SPN_FUNCHDR_LEN + bodylen) :: fnend⟩)) ∧
    (∀ bc textlen ins bodylen argc nregs,
       0 < textlen →
       bc.get? SPN_FUNCHDR_LEN = some ins →
       OPCODE ins = SPN_INS_FUNCTION →
       bc.get? (SPN_FUNCHDR_LEN + 1 + SPN_FUNCHDR_IDX_BODYLEN) = some bodylen →
       bc.get? (SPN_FUNCHDR_LEN + 1 + SPN_FUNCHDR_IDX_ARGC) = some argc →
       bc.get? (SPN_FUNCHDR_LEN + 1 + SPN_FUNCHDR_IDX_NREGS) = some nregs →
       argc > nregs →
       disasmExec bc textlen = some (-1)) := by
  constructor
  · intro bc ins ip fnend bodylen argc nregs hop hb ha hn
    have hd := dispatch_function bc ins ip fnend bodylen argc nregs hop hb ha hn
    constructor
    · intro hgt
      rw [hd, if_pos hgt]
    · intro hle
      rw [hd, if_neg (by omega)]
  · intro bc textlen ins bodylen argc nregs htl hins hop hb ha hn hgt
    have hd := dispatch_function bc ins (SPN_FUNCHDR_LEN + 1) [SPN_FUNCHDR_LEN + textlen]
      bodylen argc nregs hop hb ha hn
    rw [if_pos hgt] at hd
    simp only [disasmExec, disasmLoop]
    rw [if_pos (by omega : SPN_FUNCHDR_LEN < SPN_FUNCHDR_LEN + textlen)]
    simp only [disasmIter, hins]
    rw [if_neg (by simp [MAX_FUNC_NEST])]
    rw [if_neg (by omega : ¬ SPN_FUNCHDR_LEN = SPN_FUNCHDR_LEN + textlen)]
    rw [hd]

/-- C7 witness: a concrete image whose nested FUNCTION header declares 2
arguments but only 1 register is rejected by the disassembler. -/
theorem funchdr_witness :
    disasmExec [1, 1, 0, 0, 37, 0, 0, 2, 1] 5 = some (-1) :=
  funchdr_argc_le_nregs_checked.2 [1, 1, 0, 0, 37, 0, 0, 2, 1] 5 37 0 2 1
    (by decide) (by decide) (by decide) (by decide) (by decide) (by decide) (by decide)

/-- Helper: the GLBVAL case of the dispatch (`spn.c` lines 784-806) compares
the length in the instruction's OPMID field against the `strlen` of the
inline name and bails exactly when they disagree. -/
theorem dispatch_glbval (bc : List Nat) (ins ip : Nat) (fnend : List Nat) (reallen : Nat)
    (hop : OPCODE ins = SPN_INS_GLBVAL)
    (hlen : strlenFrom (imageBytes bc) (wordBytes * ip) = some reallen) :
    disasmDispatch bc ins ip fnend =
      if OPMID ins ≠ reallen then .fail
      else
        .next ("st\t" ++ rStr (OPA ins) ++ ", global <" ++
            cstrAt bc (wordBytes * ip) reallen ++ ">\n")
          ⟨ip + ROUNDUP (OPMID ins + 1) wordBytes, fnend⟩ := by
  simp_all [disasmDispatch, SPN_INS_CALL, SPN_INS_RET, SPN_INS_JMP, SPN_INS_JZE,
    SPN_INS_JNZ, SPN_INS_EQ, SPN_INS_MOD, SPN_INS_NEG, SPN_INS_INC, SPN_INS_DEC,
    SPN_INS_AND, SPN_INS_SHR, SPN_INS_BITNOT, SPN_INS_TYPEOF, SPN_INS_CONCAT,
    SPN_INS_LDCONST, SPN_INS_LDSYM, SPN_INS_MOV, SPN_INS_LDARGC, SPN_INS_NEWARR,
    SPN_INS_ARRGET, SPN_INS_ARRSET, SPN_INS_NTHARG, SPN_INS_FUNCTION, SPN_INS_GLBVAL]

/-- C3: every encoded string is checked against its NUL terminator; for a
STRCONST or SYMSTUB entry the `strlen` of the inline string must equal the
OPLONG field of the tag word, for a FUNCDEF entry the `strlen` of the name
must equal the inline length word, and for a GLBVAL instruction the `strlen`
of the inline name must equal the OPMID field: on disagreement the consumer
fails (and `disasm_symtab` then returns -1), on agreement it proceeds to the
next entry (`spn.c` lines 873-944 and 784-806). -/
theorem string_length_checked :
    (∀ bc pos tag len, bc.get? pos = some tag → OPCODE tag = SPN_LOCSYM_STRCONST →
       strlenFrom (imageBytes bc) (wordBytes * (pos + 1)) = some len →
       (len ≠ OPLONG tag → symtabEntryStep bc pos = .serr) ∧
       (len = OPLONG tag → symtabEntryStep bc pos =
          .scont (pos + 1 + ROUNDUP (len + 1) wordBytes))) ∧
    (∀ bc pos tag len, bc.get? pos = some tag → OPCODE tag = SPN_LOCSYM_SYMSTUB →
       strlenFrom (imageBytes bc) (wordBytes * (pos + 1)) = some len →
       (len ≠ OPLONG tag → symtabEntryStep bc pos = .serr) ∧
       (len = OPLONG tag → symtabEntryStep bc pos =
          .scont (pos + 1 + ROUNDUP (len + 1) wordBytes))) ∧
    (∀ bc pos tag off namelen reallen, bc.get? pos = some tag →
       OPCODE tag = SPN_LOCSYM_FUNCDEF →
       bc.get? (pos + 1) = some off → bc.get? (pos + 2) = some namelen →
       strlenFrom (imageBytes bc) (wordBytes * (pos + 3)) = some reallen →
       (namelen ≠ reallen → symtabEntryStep bc pos = .serr) ∧
       (namelen = reallen → symtabEntryStep bc pos =
          .scont (pos + 3 + ROUNDUP (namelen + 1) wordBytes))) ∧
    (∀ bc ins ip fnend reallen, OPCODE ins = SPN_INS_GLBVAL →
       strlenFrom (imageBytes bc) (wordBytes * ip) = some reallen →
       (OPMID ins ≠ reallen → disasmDispatch bc ins ip fnend = .fail) ∧
       (OPMID ins = reallen → disasmDispatch bc ins ip fnend =
          .next ("st\t" ++ rStr (OPA ins) ++ ", global <" ++
              cstrAt bc (wordBytes * ip) reallen ++ ">\n")
            ⟨ip + ROUNDUP (OPMID ins + 1) wordBytes, fnend⟩)) ∧
    (∀ bc off datalen n, 0 < n → symtabEntryStep bc off = .serr →
       disasmSymtab bc off datalen n = some (-1)) := by
  refine ⟨?_, ?_, ?_, ?_, ?_⟩
  · intro bc pos tag len hget hkind hlen
    constructor
    · intro hne
      simp_all [symtabEntryStep, SPN_LOCSYM_STRCONST]
    · intro heq
      simp_all [symtabEntryStep, SPN_LOCSYM_STRCONST]
  · intro bc pos tag len hget hkind hlen
    constructor
    · intro hne
      simp_all [symtabEntryStep, SPN_LOCSYM_STRCONST, SPN_LOCSYM_SYMSTUB]
    · intro heq
      simp_all [symtabEntryStep, SPN_LOCSYM_STRCONST, SPN_LOCSYM_SYMSTUB]
  · intro bc pos tag off namelen reallen hget hkind hoff hnl hlen
    constructor
    · intro hne
      simp_all [symtabEntryStep, SPN_LOCSYM_STRCONST, SPN_LOCSYM_SYMSTUB,
        SPN_LOCSYM_FUNCDEF]
    · intro heq
      simp_all [symtabEntryStep, SPN_LOCSYM_STRCONST, SPN_LOCSYM_SYMSTUB,
        SPN_LOCSYM_FUNCDEF]
  · intro bc ins ip fnend reallen hop hlen
    have hd := dispatch_glbval bc ins ip fnend reallen hop hlen
    constructor
    · intro hne
      rw [hd, if_pos hne]
    · intro heq
      rw [hd, if_neg (by simp [heq])]
  · intro bc off datalen n hn hstep
    obtain ⟨m, rfl⟩ : ∃ m, n = m + 1 := ⟨n - 1, by omega⟩
    simp [disasmSymtab, symtabWalk, hstep]

/-- C3 witness: a STRCONST entry whose tag claims length 2 over the actual
1-byte string `"a"` is rejected (and the walk returns -1), and a GLBVAL
instruction whose OPMID field claims length 2 over the actual 1-byte name
`"x"` makes the dispatch fail. -/
theorem string_length_checked_witness :
    symtabEntryStep [1, 1, 0, 0, 1, 512, 97] 5 = .serr ∧
    disasmSymtab [1, 1, 0, 0, 1, 512, 97] 5 2 1 = some (-1) ∧
    disasmDispatch [550, 120] 550 1 [] = .fail :=
  ⟨(string_length_checked.1 [1, 1, 0, 0, 1, 512, 97] 5 512 1
      (by decide) (by decide) (by decide)).1 (by decide),
   string_length_checked.2.2.2.2 [1, 1, 0, 0, 1, 512, 97] 5 2 1
      (by decide) (by decide),
   (string_length_checked.2.2.2.1 [550, 120] 550 1 [] 1
      (by decide) (by decide)).1 (by decide)⟩

/-- Helper: once the walk of the symbol table is `done` at cursor `p`,
`disasm_symtab` succeeds exactly when `p` is the end `offset + datalen`, and
returns -1 otherwise (`spn.c` lines 952-958). -/
theorem disasmSymtab_done (bc : List Nat) (offset datalen nsyms p : Nat)
    (hwalk : symtabWalk bc offset nsyms = .done p) :
    ((disasmSymtab bc offset datalen nsyms = some 0) ↔ p = offset + datalen) ∧
    (p ≠ offset + datalen → disasmSymtab bc offset datalen nsyms = some (-1)) := by
  have hd : disasmSymtab bc offset datalen nsyms =
      if p > offset + datalen then some (-1)
      else if p < offset + datalen then some (-1) else some 0 := by
    simp [disasmSymtab, hwalk]
  rcases Nat.lt_trichotomy p (offset + datalen) with h | h | h
  · rw [hd, if_neg (by omega), if_pos h]
    refine ⟨⟨fun hx => ?_, fun hx => by omega⟩, fun _ => rfl⟩
    simp at hx
  · rw [hd, if_neg (by omega), if_neg (by omega)]
    exact ⟨⟨fun _ => h, fun _ => rfl⟩, fun hx => absurd h hx⟩
  · rw [hd, if_pos h]
    refine ⟨⟨fun hx => ?_, fun hx => by omega⟩, fun _ => rfl⟩
    simp at hx

/-- C4: walking the symbol table for SYMCNT entries succeeds only if the
cursor ends exactly at the end: `disasm_symtab` returns 0 iff the final
cursor equals `offset + datalen` and -1 when it ends short of or past it;
through `disasm_bytecode` (which starts the walk at `BODYLEN +
SPN_FUNCHDR_LEN` and sets `datalen = len - symtaboff`), success is
equivalent to the walk ending exactly at the image's end `len` (`spn.c`
lines 952-958 and 964-992). -/
theorem symtab_walk_ends_at_image_end :
    (∀ bc offset datalen nsyms p, symtabWalk bc offset nsyms = .done p →
       ((disasmSymtab bc offset datalen nsyms = some 0) ↔ p = offset + datalen) ∧
       (p ≠ offset + datalen → disasmSymtab bc offset datalen nsyms = some (-1))) ∧
    (∀ bc len bodylen symcnt nregs p,
       bc.get? SPN_FUNCHDR_IDX_BODYLEN = some bodylen →
       bc.get? SPN_FUNCHDR_IDX_SYMCNT = some symcnt →
       bc.get? SPN_FUNCHDR_IDX_NREGS = some nregs →
       disasmExec bc bodylen = some 0 →
       symtabWalk bc (bodylen + SPN_FUNCHDR_LEN) symcnt = .done p →
       bodylen + SPN_FUNCHDR_LEN ≤ len →
       ((disasmBytecode bc len = some 0) ↔ p = len) ∧
       (p ≠ len → disasmBytecode bc len = some (-1))) := by
  constructor
  · intro bc offset datalen nsyms p hwalk
    exact disasmSymtab_done bc offset datalen nsyms p hwalk
  · intro bc len bodylen symcnt nregs p hb hs hn hexec hwalk hlen
    have hbyte : disasmBytecode bc len =
        disasmSymtab bc (bodylen + SPN_FUNCHDR_LEN)
          (len - (bodylen + SPN_FUNCHDR_LEN)) symcnt := by
      unfold disasmBytecode
      rw [hb, hs, hn]
      simp only [Nat.add_sub_cancel, hexec]
      rfl
    have hsum : (bodylen + SPN_FUNCHDR_LEN) + (len - (bodylen + SPN_FUNCHDR_LEN)) = len := by
      omega
    have hd := disasmSymtab_done bc (bodylen + SPN_FUNCHDR_LEN)
      (len - (bodylen + SPN_FUNCHDR_LEN)) symcnt p hwalk
    rw [hsum] at hd
    rw [hbyte]
    exact hd

/-- C4 witness: a well-formed 7-word image (1-word body holding a RET, one
1-byte STRCONST symbol) disassembles successfully because the walk ends
exactly at word 7, the image's length. -/
theorem symtab_walk_witness :
    disasmBytecode [1, 1, 0, 0, 1, 256, 97] 7 = some 0 :=
  ((symtab_walk_ends_at_image_end).2 [1, 1, 0, 0, 1, 256, 97] 7 1 1 0 7
    (by decide) (by decide) (by decide) (by decide) (by decide) (by decide)).1.mpr rfl

end Sparkling
